import Mathlib

/-!
Verification of the feature-based nearest-neighbor search pipeline of the
ProteinChat API (source: proteinPredictor module).

Conventions of the shallow embedding:
* sequences are lists of characters; the 20-letter amino-acid alphabet is the
  source constant 'ACDEFGHIKLMNPQRSTVWY';
* JavaScript 64-bit floats are modelled by exact real arithmetic;
  the window arithmetic on integer lengths (0.8 and 1.2 factors) is modelled
  by exact rational arithmetic, which is computable;
* Date.now based wall-clock readings are modelled by explicit natural-number
  parameters (searchTime, totalTime) threaded into the functions that read the
  clock;
* the SQLite corpus is modelled as a list of rows in storage order; SELECT with
  LIMIT n is List.take n, and WHERE seq_length BETWEEN a AND b is a filter;
* the ONNX scaler session is an opaque external collaborator, modelled as an
  arbitrary function on feature vectors;
* toFixed display formatting of similarity and distance is elided: the numeric
  values are kept.
-/

namespace ProteinChat

/-- The alphabet constant of extractFeaturesFast, the source string
'ACDEFGHIKLMNPQRSTVWY' as a list of characters. -/
def aminoAcids : List Char :=
  ['A', 'C', 'D', 'E', 'F', 'G', 'H', 'I', 'K', 'L',
   'M', 'N', 'P', 'Q', 'R', 'S', 'T', 'V', 'W', 'Y']

/-- Membership string 'AILMFVPWG' of the hydrophobic group filter. -/
def hydrophobicSet : List Char := ['A', 'I', 'L', 'M', 'F', 'V', 'P', 'W', 'G']

/-- Membership string 'KRH' of the positively charged group filter. -/
def positiveSet : List Char := ['K', 'R', 'H']

/-- Membership string 'DE' of the negatively charged group filter. -/
def negativeSet : List Char := ['D', 'E']

/-- Membership string 'STNQ' of the polar group filter. -/
def polarSet : List Char := ['S', 'T', 'N', 'Q']

/-- Membership string 'FWY' of the aromatic group filter. -/
def aromaticSet : List Char := ['F', 'W', 'Y']

/-- Membership string 'AGSV' of the small-residue group filter. -/
def smallSet : List Char := ['A', 'G', 'S', 'V']

/-- Embedding of extractFeaturesFast: pushes log1p of the length, then for each
alphabet symbol its occurrence count divided by the length (the aaCounts map
counts exactly the occurrences of alphabet symbols), then the six group
fractions obtained by filtering the sequence through each membership string.
JS Math.log1p n is ln (1 + n). -/
noncomputable def extractFeaturesFast (sequence : List Char) : List ℝ :=
  let seqLen := sequence.length
  [Real.log (1 + (seqLen : ℝ))]
    ++ aminoAcids.map (fun aa => ((sequence.count aa : ℝ) / (seqLen : ℝ)))
    ++ [((sequence.filter (fun c => hydrophobicSet.contains c)).length : ℝ) / (seqLen : ℝ),
        ((sequence.filter (fun c => positiveSet.contains c)).length : ℝ) / (seqLen : ℝ),
        ((sequence.filter (fun c => negativeSet.contains c)).length : ℝ) / (seqLen : ℝ),
        ((sequence.filter (fun c => polarSet.contains c)).length : ℝ) / (seqLen : ℝ),
        ((sequence.filter (fun c => aromaticSet.contains c)).length : ℝ) / (seqLen : ℝ),
        ((sequence.filter (fun c => smallSet.contains c)).length : ℝ) / (seqLen : ℝ)]

/-- Embedding of euclideanDistance: the loop runs i from 0 below a.length and
sums the squared differences a[i] - b[i], then takes the square root.  Out of
range reads return 0 here; the source produces NaN there, so theorems about
this function are stated for index-safe argument pairs. -/
noncomputable def euclideanDistance (a b : List ℝ) : ℝ :=
  Real.sqrt (((List.range a.length).map (fun i => (a.getD i 0 - b.getD i 0) ^ 2)).sum)

/-- One row of the proteins table: id, protein_name, sequence, organism,
description, seq_length, features (the precomputed scaled 27-vector, stored as
JSON in the source and parsed back on scan). -/
structure ReferenceEntry where
  id : ℕ
  protein_name : String
  sequence : String
  organism : String
  description : String
  seq_length : ℕ
  features : List ℝ

/-- The record pushed onto the distances array for each scanned protein. -/
structure ScoredEntry where
  id : ℕ
  protein_name : String
  organism : String
  description : String
  sequence : String
  distance : ℝ

/-- The shaped result record returned per match.  similarity and distance keep
their numeric values (toFixed formatting elided); searchTime is the per-result
field that the source sets only at index 0. -/
structure SearchResult where
  rank : ℕ
  protein : String
  organism : String
  description : String
  similarity : ℝ
  distance : ℝ
  sequence : String
  searchTime : Option ℕ

/-- SELECT id, protein_name, sequence, organism, description, features FROM
proteins LIMIT maxScan: the first maxScan rows in storage order. -/
def scanAll (db : List ReferenceEntry) (limit : ℕ) : List ReferenceEntry :=
  db.take limit

/-- SELECT ... FROM proteins WHERE seq_length BETWEEN minLen AND maxLen
LIMIT limit: rows whose stored length falls in the closed window, truncated to
the limit, in storage order. -/
def scanByLengthWindow (db : List ReferenceEntry) (minLen maxLen : ℤ) (limit : ℕ) :
    List ReferenceEntry :=
  (db.filter (fun e =>
    decide (minLen ≤ (e.seq_length : ℤ)) && decide ((e.seq_length : ℤ) ≤ maxLen))).take limit

/-- The scoring loop shared by both search functions: for each scanned protein
push its display fields together with the Euclidean distance from the scaled
query vector to the protein's stored feature vector. -/
noncomputable def scoreCandidates (scaledFeatures : List ℝ) (proteins : List ReferenceEntry) :
    List ScoredEntry :=
  proteins.map (fun p =>
    { id := p.id
      protein_name := p.protein_name
      organism := p.organism
      description := p.description
      sequence := p.sequence
      distance := euclideanDistance scaledFeatures p.features })

/-- The comparator (a, b) => a.distance - b.distance of the source sort, as the
corresponding boolean less-or-equal test on distances. -/
noncomputable def distLe (a b : ScoredEntry) : Bool :=
  decide (a.distance ≤ b.distance)

/-- distances.sort((a, b) => a.distance - b.distance): JavaScript Array sort is
a stable ascending sort, modelled by stable merge sort under distLe. -/
noncomputable def sortByDistance (l : List ScoredEntry) : List ScoredEntry :=
  l.mergeSort distLe

/-- topResults.map((item, index) => ...): shape each retained candidate into a
SearchResult; similarity is max(0, 100 * (1 - distance / 10)); the searchTime
field is set to the measured search wall-time at index 0 and left undefined
elsewhere. -/
noncomputable def shapeResults (searchTime : ℕ) (topResults : List ScoredEntry) :
    List SearchResult :=
  topResults.mapIdx (fun index item =>
    { rank := index + 1
      protein := item.protein_name
      organism := item.organism
      description := item.description
      similarity := max 0 (100 * (1 - item.distance / 10))
      distance := item.distance
      sequence := item.sequence
      searchTime := if index = 0 then some searchTime else none })

/-- Embedding of findNearestNeighbors(scaledFeatures, topN = 5, maxScan =
50000): scan the first maxScan rows, score them all, sort ascending by
distance, keep the first topN, and shape.  The db list and the measured search
wall-time are the explicit models of the open database handle and of the
Date.now difference. -/
noncomputable def findNearestNeighbors (db : List ReferenceEntry) (searchTime : ℕ)
    (scaledFeatures : List ℝ) (topN : ℕ := 5) (maxScan : ℕ := 50000) :
    List SearchResult :=
  let proteins := scanAll db maxScan
  let distances := scoreCandidates scaledFeatures proteins
  let topResults := (sortByDistance distances).take topN
  shapeResults searchTime topResults

/-- The candidate-selection step of findNearestNeighborsFast: minLength =
Math.floor(inputLength * 0.8), maxLength = Math.ceil(inputLength * 1.2), then
the windowed scan with its hard LIMIT 100000. -/
def fastCandidates (db : List ReferenceEntry) (inputLength : ℕ) : List ReferenceEntry :=
  let minLength : ℤ := ⌊(0.8 : ℚ) * (inputLength : ℚ)⌋
  let maxLength : ℤ := ⌈(1.2 : ℚ) * (inputLength : ℚ)⌉
  scanByLengthWindow db minLength maxLength 100000

/-- Embedding of findNearestNeighborsFast(scaledFeatures, topN = 5,
inputLength): identical to the exhaustive search except that candidates come
from the length-windowed scan. -/
noncomputable def findNearestNeighborsFast (db : List ReferenceEntry) (searchTime : ℕ)
    (scaledFeatures : List ℝ) (topN : ℕ := 5) (inputLength : ℕ := 0) :
    List SearchResult :=
  let proteins := fastCandidates db inputLength
  let distances := scoreCandidates scaledFeatures proteins
  let topResults := (sortByDistance distances).take topN
  shapeResults searchTime topResults

/-- The record returned by predictProtein. -/
structure PredictOutput where
  results : List SearchResult
  time : ℕ
  searchTime : Option ℕ
  inputSequence : List Char
  inputLength : ℕ

/-- Embedding of predictProtein(sequence, topN = 5, useFastSearch = true):
extract features, run the scaler (opaque external collaborator, passed as a
function), search fast or exhaustively, and shape the output; the top-level
searchTime is read back from results[0]?.searchTime and the input snippet is
the first 100 characters with an ellipsis when longer. -/
noncomputable def predictProtein (scaler : List ℝ → List ℝ) (db : List ReferenceEntry)
    (searchT totalTime : ℕ) (sequence : List Char) (topN : ℕ := 5)
    (useFastSearch : Bool := true) : PredictOutput :=
  let features := extractFeaturesFast sequence
  let scaledFeatures := scaler features
  let results :=
    if useFastSearch then
      findNearestNeighborsFast db searchT scaledFeatures topN sequence.length
    else
      findNearestNeighbors db searchT scaledFeatures topN
  { results := results
    time := totalTime
    searchTime := results.head?.bind (fun r => r.searchTime)
    inputSequence := sequence.take 100 ++ (if sequence.length > 100 then ['.', '.', '.'] else [])
    inputLength := sequence.length }

/-- C6: the scoring distance is reflexive-zero, symmetric and nonnegative on
index-compatible vectors (all feature vectors compared by the code share the
fixed dimension 27): distance v v = 0, distance a b = distance b a, and
0 ≤ distance a b. -/
theorem euclideanDistance_metric_properties (a b v : List ℝ) (h : a.length = b.length) :
    euclideanDistance v v = 0 ∧
    euclideanDistance a b = euclideanDistance b a ∧
    0 ≤ euclideanDistance a b := by
  refine ⟨?_, ?_, Real.sqrt_nonneg _⟩
  · unfold euclideanDistance
    have hz : (((List.range v.length).map (fun i => (v.getD i 0 - v.getD i 0) ^ 2)).sum : ℝ) = 0 := by
      apply List.sum_eq_zero
      intro x hx
      rcases List.mem_map.mp hx with ⟨i, _, rfl⟩
      simp
    rw [hz, Real.sqrt_zero]
  · unfold euclideanDistance
    rw [h]
    congr 1
    congr 1
    apply List.map_congr_left
    intro i _
    ring

/-- Closed instance of euclideanDistance_metric_properties at concrete
two-element vectors. -/
theorem euclideanDistance_metric_properties_witness :
    ([(1 : ℝ), 2].length = [(3 : ℝ), 5].length) ∧
    (euclideanDistance [(0 : ℝ), 1] [(0 : ℝ), 1] = 0 ∧
     euclideanDistance [(1 : ℝ), 2] [(3 : ℝ), 5] = euclideanDistance [(3 : ℝ), 5] [(1 : ℝ), 2] ∧
     0 ≤ euclideanDistance [(1 : ℝ), 2] [(3 : ℝ), 5]) :=
  ⟨by simp, euclideanDistance_metric_properties [(1 : ℝ), 2] [(3 : ℝ), 5] [(0 : ℝ), 1] (by simp)⟩

/-- C4: for every input sequence the extracted vector has exactly 27 entries in
the fixed layout: ln(1 + len) first, then the 20 per-symbol fractions in the
canonical alphabet order A C D E F G H I K L M N P Q R S T V W Y, then the six
physicochemical group fractions. -/
theorem extractFeaturesFast_layout (s : List Char) :
    (extractFeaturesFast s).length = 27 ∧
    extractFeaturesFast s =
      Real.log (1 + (s.length : ℝ)) ::
      ((s.count 'A' : ℝ) / (s.length : ℝ)) ::
      ((s.count 'C' : ℝ) / (s.length : ℝ)) ::
      ((s.count 'D' : ℝ) / (s.length : ℝ)) ::
      ((s.count 'E' : ℝ) / (s.length : ℝ)) ::
      ((s.count 'F' : ℝ) / (s.length : ℝ)) ::
      ((s.count 'G' : ℝ) / (s.length : ℝ)) ::
      ((s.count 'H' : ℝ) / (s.length : ℝ)) ::
      ((s.count 'I' : ℝ) / (s.length : ℝ)) ::
      ((s.count 'K' : ℝ) / (s.length : ℝ)) ::
      ((s.count 'L' : ℝ) / (s.length : ℝ)) ::
      ((s.count 'M' : ℝ) / (s.length : ℝ)) ::
      ((s.count 'N' : ℝ) / (s.length : ℝ)) ::
      ((s.count 'P' : ℝ) / (s.length : ℝ)) ::
      ((s.count 'Q' : ℝ) / (s.length : ℝ)) ::
      ((s.count 'R' : ℝ) / (s.length : ℝ)) ::
      ((s.count 'S' : ℝ) / (s.length : ℝ)) ::
      ((s.count 'T' : ℝ) / (s.length : ℝ)) ::
      ((s.count 'V' : ℝ) / (s.length : ℝ)) ::
      ((s.count 'W' : ℝ) / (s.length : ℝ)) ::
      ((s.count 'Y' : ℝ) / (s.length : ℝ)) ::
      (((s.filter (fun c => hydrophobicSet.contains c)).length : ℝ) / (s.length : ℝ)) ::
      (((s.filter (fun c => positiveSet.contains c)).length : ℝ) / (s.length : ℝ)) ::
      (((s.filter (fun c => negativeSet.contains c)).length : ℝ) / (s.length : ℝ)) ::
      (((s.filter (fun c => polarSet.contains c)).length : ℝ) / (s.length : ℝ)) ::
      (((s.filter (fun c => aromaticSet.contains c)).length : ℝ) / (s.length : ℝ)) ::
      (((s.filter (fun c => smallSet.contains c)).length : ℝ) / (s.length : ℝ)) :: [] := by
  constructor
  · simp [extractFeaturesFast, aminoAcids]
  · rfl

/-- C3: the source contains no empty-input guard: on the empty sequence
extractFeaturesFast still returns an ordinary 27-element numeric vector (in
JavaScript the divisions are 0/0, producing NaN components; the exact model
follows the x/0 = 0 convention), and no DegenerateInputError or any other
failure channel exists in its type. -/
theorem extractFeaturesFast_empty_no_error :
    (extractFeaturesFast []).length = 27 ∧
    extractFeaturesFast [] = Real.log 1 :: List.replicate 26 (0 : ℝ) := by
  constructor
  · simp [extractFeaturesFast, aminoAcids]
  · show extractFeaturesFast [] = _
    simp [extractFeaturesFast, aminoAcids, List.replicate]

/-- Helper: the indicator sum over a list not containing c vanishes. -/
theorem sum_indicator_zero (c : Char) :
    ∀ (l : List Char), c ∉ l → (l.map (fun aa => if c = aa then (1 : ℝ) else 0)).sum = 0 := by
  intro l
  induction l with
  | nil => intro _; simp
  | cons a t ih =>
    intro hc
    have hca : c ≠ a := fun hh => hc (hh ▸ List.mem_cons_self a t)
    have hct : c ∉ t := fun hh => hc (List.mem_cons_of_mem a hh)
    simp [hca, ih hct]

/-- Helper: the indicator sum over a duplicate-free list containing c is 1. -/
theorem sum_indicator_one (c : Char) :
    ∀ (l : List Char), l.Nodup → c ∈ l →
      (l.map (fun aa => if c = aa then (1 : ℝ) else 0)).sum = 1 := by
  intro l
  induction l with
  | nil => intro _ hc; cases hc
  | cons a t ih =>
    intro hnd hc
    rcases List.mem_cons.mp hc with rfl | hct
    · have hnotmem : c ∉ t := (List.nodup_cons.mp hnd).1
      simp [sum_indicator_zero c t hnotmem]
    · have hca : c ≠ a := by
        rintro rfl
        exact (List.nodup_cons.mp hnd).1 hct
      simp [hca, ih (List.nodup_cons.mp hnd).2 hct]

/-- Helper: over a duplicate-free alphabet covering every character of s, the
occurrence counts of the alphabet symbols sum to the length of s. -/
theorem sum_counts_eq_length (l : List Char) (hnd : l.Nodup) :
    ∀ (s : List Char), (∀ c ∈ s, c ∈ l) →
      (l.map (fun aa => ((s.count aa : ℕ) : ℝ))).sum = (s.length : ℝ) := by
  intro s
  induction s with
  | nil => intro _; simp
  | cons c t ih =>
    intro hmem
    have hct : ∀ x ∈ t, x ∈ l := fun x hx => hmem x (List.mem_cons_of_mem _ hx)
    have hcl : c ∈ l := hmem c (List.mem_cons_self _ _)
    have hmap : l.map (fun aa => (((c :: t).count aa : ℕ) : ℝ))
        = l.map (fun aa => ((t.count aa : ℕ) : ℝ) + (if c = aa then (1 : ℝ) else 0)) := by
      apply List.map_congr_left
      intro aa _
      rw [List.count_cons]
      by_cases hca : c = aa <;> simp [hca]
    rw [hmap, List.sum_map_add, ih hct, sum_indicator_one c l hnd hcl, List.length_cons]
    push_cast
    ring

/-- C5: for every nonempty sequence over the 20-symbol alphabet, the 20
per-symbol composition fractions (elements 2 through 21 of the extracted
vector) sum to exactly 1 in exact arithmetic. -/
theorem extractFeaturesFast_composition_sum (s : List Char) (hne : s ≠ [])
    (halpha : ∀ c ∈ s, c ∈ aminoAcids) :
    (((extractFeaturesFast s).drop 1).take 20).sum = 1 := by
  have hdrop : ((extractFeaturesFast s).drop 1).take 20
      = aminoAcids.map (fun aa => ((s.count aa : ℝ) / (s.length : ℝ))) := by
    simp only [extractFeaturesFast]
    rw [List.append_assoc, List.singleton_append, List.drop_one, List.tail_cons]
    exact List.take_left' (by simp [aminoAcids])
  have hdiv : (aminoAcids.map (fun aa => ((s.count aa : ℝ) / (s.length : ℝ)))).sum
      = (aminoAcids.map (fun aa => ((s.count aa : ℕ) : ℝ))).sum * ((s.length : ℝ))⁻¹ := by
    rw [← List.sum_map_mul_right]
    apply congrArg
    apply List.map_congr_left
    intro aa _
    rw [div_eq_mul_inv]
  have hlen : (s.length : ℝ) ≠ 0 := by
    have hpos : 0 < s.length := List.length_pos.mpr hne
    exact_mod_cast Nat.pos_iff_ne_zero.mp hpos
  rw [hdrop, hdiv, sum_counts_eq_length aminoAcids (by decide) s halpha]
  field_simp

/-- Closed instance of extractFeaturesFast_composition_sum on a concrete
two-character sequence. -/
theorem extractFeaturesFast_composition_sum_witness :
    (['A', 'C'] ≠ ([] : List Char)) ∧ (∀ c ∈ ['A', 'C'], c ∈ aminoAcids) ∧
    (((extractFeaturesFast ['A', 'C']).drop 1).take 20).sum = 1 :=
  ⟨by decide, by decide,
    extractFeaturesFast_composition_sum ['A', 'C'] (by decide) (by decide)⟩

/-- Helper: the distance comparator is transitive. -/
theorem distLe_trans (a b c : ScoredEntry) (hab : distLe a b = true) (hbc : distLe b c = true) :
    distLe a c = true := by
  simp only [distLe, decide_eq_true_eq] at hab hbc ⊢
  exact le_trans hab hbc

/-- Helper: the distance comparator is total. -/
theorem distLe_total (a b : ScoredEntry) : (distLe a b || distLe b a) = true := by
  simp only [distLe, Bool.or_eq_true, decide_eq_true_eq]
  exact le_total a.distance b.distance

/-- Helper: the sort stage produces a list whose distances ascend. -/
theorem sortByDistance_sorted (l : List ScoredEntry) :
    (sortByDistance l).Pairwise (fun a b => a.distance ≤ b.distance) := by
  have h := @List.sorted_mergeSort ScoredEntry distLe distLe_trans distLe_total l
  exact h.imp (by intro a b hab; simpa [distLe] using hab)

/-- Helper: result shaping keeps each candidate's distance, hence preserves
the ascending-distance property. -/
theorem shapeResults_pairwise (t : ℕ) (l : List ScoredEntry)
    (h : l.Pairwise (fun a b => a.distance ≤ b.distance)) :
    (shapeResults t l).Pairwise (fun r s => r.distance ≤ s.distance) := by
  rw [List.pairwise_iff_getElem] at h ⊢
  intro i j hi hj hij
  have hi' : i < l.length := by simpa [shapeResults] using hi
  have hj' : j < l.length := by simpa [shapeResults] using hj
  simpa [shapeResults, List.getElem_mapIdx] using h i j hi' hj' hij

/-- Helper: result shaping preserves length. -/
theorem shapeResults_length (t : ℕ) (l : List ScoredEntry) :
    (shapeResults t l).length = l.length := by
  simp [shapeResults]

/-- C1: for every query vector, candidate list and topN, both search functions
return results sorted ascending by distance to the query, of length at most
topN and at most the candidate count; ties are broken stably: any two scored
candidates in retrieval order whose distances do not force a swap stay in
retrieval order through the sort. -/
theorem search_sorted_bounded_stable (db : List ReferenceEntry) (q : List ℝ)
    (t topN maxScan len : ℕ) (scored : List ScoredEntry) (a b : ScoredEntry)
    (hsub : [a, b].Sublist scored) (hle : a.distance ≤ b.distance) :
    [a, b].Sublist (sortByDistance scored) ∧
    (findNearestNeighbors db t q topN maxScan).Pairwise (fun r s => r.distance ≤ s.distance) ∧
    (findNearestNeighbors db t q topN maxScan).length ≤ topN ∧
    (findNearestNeighbors db t q topN maxScan).length ≤ (scanAll db maxScan).length ∧
    (findNearestNeighborsFast db t q topN len).Pairwise (fun r s => r.distance ≤ s.distance) ∧
    (findNearestNeighborsFast db t q topN len).length ≤ topN ∧
    (findNearestNeighborsFast db t q topN len).length ≤ (fastCandidates db len).length := by
  have hgen : ∀ cands : List ReferenceEntry,
      (shapeResults t ((sortByDistance (scoreCandidates q cands)).take topN)).Pairwise
        (fun r s => r.distance ≤ s.distance) ∧
      (shapeResults t ((sortByDistance (scoreCandidates q cands)).take topN)).length ≤ topN ∧
      (shapeResults t ((sortByDistance (scoreCandidates q cands)).take topN)).length
        ≤ cands.length := by
    intro cands
    refine ⟨?_, ?_, ?_⟩
    · exact shapeResults_pairwise t _
        (List.Pairwise.sublist (List.take_sublist _ _) (sortByDistance_sorted _))
    · rw [shapeResults_length]
      exact List.length_take_le _ _
    · rw [shapeResults_length, List.length_take]
      calc min topN (sortByDistance (scoreCandidates q cands)).length
          ≤ (sortByDistance (scoreCandidates q cands)).length := min_le_right _ _
        _ = cands.length := by
            simp [sortByDistance, List.length_mergeSort, scoreCandidates]
  refine ⟨?_, ?_⟩
  · have hp : List.Pairwise (fun x y => distLe x y = true) [a, b] := by
      simp [distLe, hle]
    exact List.sublist_mergeSort distLe_trans distLe_total hp hsub
  · simp only [findNearestNeighbors, findNearestNeighborsFast]
    exact ⟨(hgen _).1, (hgen _).2.1, (hgen _).2.2, (hgen _).1, (hgen _).2.1, (hgen _).2.2⟩

/-- A concrete scored candidate used to instantiate witnesses. -/
def scoredA : ScoredEntry :=
  { id := 0, protein_name := "A", organism := "O", description := "DA", sequence := "SA",
    distance := 1 }

/-- A second concrete scored candidate used to instantiate witnesses. -/
def scoredB : ScoredEntry :=
  { id := 1, protein_name := "B", organism := "O", description := "DB", sequence := "SB",
    distance := 2 }

/-- Closed instance of search_sorted_bounded_stable on a concrete two-element
scored list and empty corpus. -/
theorem search_sorted_bounded_stable_witness :
    ([scoredA, scoredB].Sublist [scoredA, scoredB] ∧ scoredA.distance ≤ scoredB.distance) ∧
    ([scoredA, scoredB].Sublist (sortByDistance [scoredA, scoredB]) ∧
     (findNearestNeighbors [] 0 [] 3 50000).Pairwise (fun r s => r.distance ≤ s.distance) ∧
     (findNearestNeighbors [] 0 [] 3 50000).length ≤ 3 ∧
     (findNearestNeighbors [] 0 [] 3 50000).length ≤ (scanAll [] 50000).length ∧
     (findNearestNeighborsFast [] 0 [] 3 4).Pairwise (fun r s => r.distance ≤ s.distance) ∧
     (findNearestNeighborsFast [] 0 [] 3 4).length ≤ 3 ∧
     (findNearestNeighborsFast [] 0 [] 3 4).length ≤ (fastCandidates [] 4).length) :=
  ⟨⟨List.Sublist.refl _, by norm_num [scoredA, scoredB]⟩,
    search_sorted_bounded_stable [] [] 0 3 50000 4 [scoredA, scoredB] scoredA scoredB
      (List.Sublist.refl _) (by norm_num [scoredA, scoredB])⟩

/-- Helper: every scored candidate's distance is a square root, hence
nonnegative. -/
theorem scoreCandidates_distance_nonneg (q : List ℝ) (ps : List ReferenceEntry) :
    ∀ x ∈ scoreCandidates q ps, 0 ≤ x.distance := by
  intro x hx
  rcases List.mem_map.mp hx with ⟨p, _, rfl⟩
  exact Real.sqrt_nonneg _

/-- Helper: every shaped result of the common search core carries the
similarity derived from its own distance by the clamped affine map, and its
distance is nonnegative. -/
theorem mem_search_shape (t topN : ℕ) (q : List ℝ) (cands : List ReferenceEntry)
    (r : SearchResult)
    (hr : r ∈ shapeResults t ((sortByDistance (scoreCandidates q cands)).take topN)) :
    r.similarity = max 0 (100 * (1 - r.distance / 10)) ∧ 0 ≤ r.distance := by
  rcases List.mem_mapIdx.mp hr with ⟨i, hi, rfl⟩
  refine ⟨rfl, ?_⟩
  have hmem : ((sortByDistance (scoreCandidates q cands)).take topN)[i]
      ∈ (sortByDistance (scoreCandidates q cands)).take topN := List.getElem_mem hi
  have h1 : ((sortByDistance (scoreCandidates q cands)).take topN)[i]
      ∈ sortByDistance (scoreCandidates q cands) := List.mem_of_mem_take hmem
  have h2 : ((sortByDistance (scoreCandidates q cands)).take topN)[i]
      ∈ scoreCandidates q cands :=
    ((List.mergeSort_perm (scoreCandidates q cands) distLe).mem_iff).mp h1
  exact scoreCandidates_distance_nonneg q cands _ h2

/-- Helper: the clamped affine similarity map is bounded above by 100 on
nonnegative distances. -/
theorem similarity_le_100 (d : ℝ) (hd : 0 ≤ d) : max 0 (100 * (1 - d / 10)) ≤ 100 := by
  have h10 : (0 : ℝ) ≤ d / 10 := div_nonneg hd (by norm_num)
  apply max_le (by norm_num)
  linarith

/-- C2: every result of either search reports similarity equal to
max(0, 100 * (1 - distance / 10)); similarity always lies in the closed
interval from 0 to 100; and as a function of distance the map is
non-increasing. -/
theorem similarity_formula_bounds_monotone (db : List ReferenceEntry) (q : List ℝ)
    (t topN maxScan len : ℕ) (r r' : SearchResult) (d1 d2 : ℝ)
    (hr : r ∈ findNearestNeighbors db t q topN maxScan)
    (hr' : r' ∈ findNearestNeighborsFast db t q topN len)
    (hd : d1 ≤ d2) :
    (r.similarity = max 0 (100 * (1 - r.distance / 10)) ∧
      0 ≤ r.similarity ∧ r.similarity ≤ 100) ∧
    (r'.similarity = max 0 (100 * (1 - r'.distance / 10)) ∧
      0 ≤ r'.similarity ∧ r'.similarity ≤ 100) ∧
    max 0 (100 * (1 - d2 / 10)) ≤ max 0 (100 * (1 - d1 / 10)) := by
  simp only [findNearestNeighbors] at hr
  simp only [findNearestNeighborsFast] at hr'
  have h1 := mem_search_shape t topN q (scanAll db maxScan) r hr
  have h2 := mem_search_shape t topN q (fastCandidates db len) r' hr'
  refine ⟨⟨h1.1, ?_, ?_⟩, ⟨h2.1, ?_, ?_⟩, ?_⟩
  · rw [h1.1]; exact le_max_left _ _
  · rw [h1.1]; exact similarity_le_100 _ h1.2
  · rw [h2.1]; exact le_max_left _ _
  · rw [h2.1]; exact similarity_le_100 _ h2.2
  · exact max_le_max le_rfl (by linarith)

/-- Helper: the distance from the empty query vector is zero (the scoring loop
runs over the indices of the first argument). -/
theorem euclideanDistance_nil (l : List ℝ) : euclideanDistance [] l = 0 := by
  simp [euclideanDistance]

/-- A concrete corpus row of stored length 10 used to instantiate witnesses. -/
def entryTen : ReferenceEntry :=
  { id := 1, protein_name := "HBA", sequence := "MV", organism := "Human",
    description := "hemoglobin", seq_length := 10, features := [] }

/-- Helper evaluation: the exhaustive search over a one-row corpus returns the
single shaped result, with the measured search time attached at index 0. -/
theorem findNearestNeighbors_singleton (e : ReferenceEntry) (t : ℕ) (q : List ℝ) :
    findNearestNeighbors [e] t q 5 50000 =
      [{ rank := 1, protein := e.protein_name, organism := e.organism,
         description := e.description,
         similarity := max 0 (100 * (1 - euclideanDistance q e.features / 10)),
         distance := euclideanDistance q e.features, sequence := e.sequence,
         searchTime := some t }] := by
  have h1 : scanAll [e] 50000 = [e] := List.take_of_length_le (by simp)
  simp only [findNearestNeighbors, h1, scoreCandidates, List.map_cons, List.map_nil,
    sortByDistance, List.mergeSort_singleton]
  rw [List.take_of_length_le (by simp)]
  simp [shapeResults]

/-- Helper evaluation: the fast search over a one-row corpus whose stored
length falls inside the derived integer window returns the single shaped
result. -/
theorem findNearestNeighborsFast_singleton (e : ReferenceEntry) (t : ℕ) (q : List ℝ)
    (len : ℕ) (hmin : ⌊(0.8 : ℚ) * (len : ℚ)⌋ ≤ (e.seq_length : ℤ))
    (hmax : (e.seq_length : ℤ) ≤ ⌈(1.2 : ℚ) * (len : ℚ)⌉) :
    findNearestNeighborsFast [e] t q 5 len =
      [{ rank := 1, protein := e.protein_name, organism := e.organism,
         description := e.description,
         similarity := max 0 (100 * (1 - euclideanDistance q e.features / 10)),
         distance := euclideanDistance q e.features, sequence := e.sequence,
         searchTime := some t }] := by
  have h1 : fastCandidates [e] len = [e] := by
    simp only [fastCandidates, scanByLengthWindow, List.filter_cons, List.filter_nil]
    rw [if_pos (by simp [hmin, hmax])]
    exact List.take_of_length_le (by simp)
  simp only [findNearestNeighborsFast, h1, scoreCandidates, List.map_cons, List.map_nil,
    sortByDistance, List.mergeSort_singleton]
  rw [List.take_of_length_le (by simp)]
  simp [shapeResults]

/-- The concrete shaped result produced by both searches on the one-row corpus
entryTen with the empty query vector. -/
def resultTen : SearchResult :=
  { rank := 1, protein := "HBA", organism := "Human", description := "hemoglobin",
    similarity := 100, distance := 0, sequence := "MV", searchTime := some 3 }

/-- Closed instance of similarity_formula_bounds_monotone: one-row corpus,
empty query vector, both search modes, distances 0 and 1. -/
theorem similarity_formula_bounds_monotone_witness :
    resultTen ∈ findNearestNeighbors [entryTen] 3 [] 5 50000 ∧
    resultTen ∈ findNearestNeighborsFast [entryTen] 3 [] 5 10 ∧
    (0 : ℝ) ≤ 1 ∧
    ((resultTen.similarity = max 0 (100 * (1 - resultTen.distance / 10)) ∧
      0 ≤ resultTen.similarity ∧ resultTen.similarity ≤ 100) ∧
     (resultTen.similarity = max 0 (100 * (1 - resultTen.distance / 10)) ∧
      0 ≤ resultTen.similarity ∧ resultTen.similarity ≤ 100) ∧
     max 0 (100 * (1 - (1 : ℝ) / 10)) ≤ max 0 (100 * (1 - (0 : ℝ) / 10))) := by
  have hmem1 : resultTen ∈ findNearestNeighbors [entryTen] 3 [] 5 50000 := by
    rw [findNearestNeighbors_singleton]
    norm_num [entryTen, resultTen, euclideanDistance_nil]
  have hmem2 : resultTen ∈ findNearestNeighborsFast [entryTen] 3 [] 5 10 := by
    rw [findNearestNeighborsFast_singleton entryTen 3 [] 10 (by norm_num [entryTen])
      (by norm_num [entryTen])]
    norm_num [entryTen, resultTen, euclideanDistance_nil]
  exact ⟨hmem1, hmem2, by norm_num,
    similarity_formula_bounds_monotone [entryTen] [] 3 5 50000 10 _ _ 0 1 hmem1 hmem2
      (by norm_num)⟩

/-- A concrete corpus row of stored length 5 used for the window
counterexample. -/
def entryFive : ReferenceEntry :=
  { id := 2, protein_name := "P5", sequence := "AAAAA", organism := "Org",
    description := "short row", seq_length := 5, features := [] }

/-- C7 counterexample: for query length 7 the code computes the window
[floor(5.6), ceil(8.4)] = [5, 9]; a stored entry of length 5 is retrieved by
the fast candidate selection although 5 lies strictly below 0.8 * 7 = 5.6,
that is, outside the claimed real window. -/
theorem fastCandidates_window_counterexample :
    (fastCandidates [entryFive] 7).map (fun e => e.seq_length) = [5] ∧
    ¬ ((0.8 : ℚ) * (7 : ℚ) ≤ ((5 : ℕ) : ℚ)) := by
  constructor
  · have hmin : (⌊(0.8 : ℚ) * ((7 : ℕ) : ℚ)⌋ : ℤ) = 5 := by norm_num
    have hmax : (⌈(1.2 : ℚ) * ((7 : ℕ) : ℚ)⌉ : ℤ) = 9 := by
      rw [show ((1.2 : ℚ) * ((7 : ℕ) : ℚ)) = 42 / 5 by norm_num]
      rw [Int.ceil_eq_iff]
      norm_num
    simp only [fastCandidates, hmin, hmax, scanByLengthWindow]
    norm_num [entryFive]
  · norm_num

/-- C7 amended: the fast-mode candidate selection retrieves exactly the stored
entries whose integer length lies in the widened window from floor(0.8 len) to
ceil(1.2 len), up to the scan limit of 100000 rows (exact whenever the corpus
fits in the limit, as here). -/
theorem fastCandidates_window_exact (db : List ReferenceEntry) (len : ℕ)
    (e : ReferenceEntry) (hlim : db.length ≤ 100000) :
    e ∈ fastCandidates db len ↔
      e ∈ db ∧ ⌊(0.8 : ℚ) * (len : ℚ)⌋ ≤ (e.seq_length : ℤ)
        ∧ (e.seq_length : ℤ) ≤ ⌈(1.2 : ℚ) * (len : ℚ)⌉ := by
  simp only [fastCandidates, scanByLengthWindow]
  rw [List.take_of_length_le (le_trans (List.length_filter_le _ _) hlim)]
  simp [List.mem_filter, and_assoc]

/-- Closed instance of fastCandidates_window_exact on a one-row corpus whose
stored length 10 lies inside the window for query length 10. -/
theorem fastCandidates_window_exact_witness :
    ([entryTen].length ≤ 100000) ∧
    (entryTen ∈ fastCandidates [entryTen] 10 ↔
      entryTen ∈ [entryTen] ∧ ⌊(0.8 : ℚ) * ((10 : ℕ) : ℚ)⌋ ≤ (entryTen.seq_length : ℤ)
        ∧ (entryTen.seq_length : ℤ) ≤ ⌈(1.2 : ℚ) * ((10 : ℕ) : ℚ)⌉) :=
  ⟨by norm_num, fastCandidates_window_exact [entryTen] 10 entryTen (by norm_num)⟩

/-- C8 counterexample: a SearchResult does carry a search-timing field: on a
one-row corpus the single result's searchTime field holds the measured search
wall-time (here 42) rather than being absent from every result. -/
theorem searchTime_per_result_counterexample :
    (findNearestNeighbors [entryTen] 42 [] 5 50000).map (fun r => r.searchTime)
      = [some 42] := by
  rw [findNearestNeighbors_singleton]
  simp

/-- Helper: the shaped results carry the search time exactly at index 0. -/
theorem shapeResults_searchTimes (t : ℕ) (l : List ScoredEntry) :
    (shapeResults t l).map (fun r => r.searchTime)
      = (List.range l.length).map (fun i => if i = 0 then some t else none) := by
  apply List.ext_getElem
  · simp [shapeResults]
  · intro i h1 h2
    have hi : i < l.length := by simpa [shapeResults] using h1
    simp [shapeResults, List.getElem_mapIdx]

/-- Helper: when the shaped result list is nonempty, reading results[0] gives
back the measured search time. -/
theorem shapeResults_head_searchTime (t : ℕ) (l : List ScoredEntry)
    (h : l ≠ []) :
    (shapeResults t l).head?.bind (fun r => r.searchTime) = some t := by
  cases l with
  | nil => exact absurd rfl h
  | cons x xs => simp [shapeResults, List.mapIdx_cons]

/-- C8 amended: the search-stage wall-time is carried per-result, not as
pipeline-level-only metadata: each search attaches some t to the result at
index 0 and none to every later result, and predictProtein recovers its
top-level searchTime by reading it back from results[0]. -/
theorem searchTime_first_result (db : List ReferenceEntry) (q : List ℝ)
    (t totalT topN maxScan len : ℕ) (scaler : List ℝ → List ℝ) (s : List Char)
    (fast : Bool)
    (hne : (predictProtein scaler db t totalT s topN fast).results ≠ []) :
    ((findNearestNeighbors db t q topN maxScan).map (fun r => r.searchTime)
        = (List.range (findNearestNeighbors db t q topN maxScan).length).map
            (fun i => if i = 0 then some t else none)) ∧
    ((findNearestNeighborsFast db t q topN len).map (fun r => r.searchTime)
        = (List.range (findNearestNeighborsFast db t q topN len).length).map
            (fun i => if i = 0 then some t else none)) ∧
    (predictProtein scaler db t totalT s topN fast).searchTime = some t := by
  refine ⟨?_, ?_, ?_⟩
  · simp only [findNearestNeighbors]
    rw [shapeResults_searchTimes, shapeResults_length]
  · simp only [findNearestNeighborsFast]
    rw [shapeResults_searchTimes, shapeResults_length]
  · cases fast with
    | false =>
      simp only [predictProtein, Bool.false_eq_true, if_false] at hne ⊢
      simp only [findNearestNeighbors] at hne ⊢
      apply shapeResults_head_searchTime
      intro hemp
      exact hne (by rw [hemp]; simp [shapeResults])
    | true =>
      simp only [predictProtein, if_true] at hne ⊢
      simp only [findNearestNeighborsFast] at hne ⊢
      apply shapeResults_head_searchTime
      intro hemp
      exact hne (by rw [hemp]; simp [shapeResults])

/-- Closed instance of searchTime_first_result: one-row corpus, identity
scaler, exhaustive mode; the pipeline output is nonempty and its top-level
searchTime is the per-result value some 3. -/
theorem searchTime_first_result_witness :
    (predictProtein (fun v => v) [entryTen] 3 9 ['M'] 5 false).results ≠ [] ∧
    (((findNearestNeighbors [entryTen] 3 [] 5 50000).map (fun r => r.searchTime)
        = (List.range (findNearestNeighbors [entryTen] 3 [] 5 50000).length).map
            (fun i => if i = 0 then some 3 else none)) ∧
     ((findNearestNeighborsFast [entryTen] 3 [] 5 10).map (fun r => r.searchTime)
        = (List.range (findNearestNeighborsFast [entryTen] 3 [] 5 10).length).map
            (fun i => if i = 0 then some 3 else none)) ∧
     (predictProtein (fun v => v) [entryTen] 3 9 ['M'] 5 false).searchTime = some 3) := by
  have hne : (predictProtein (fun v => v) [entryTen] 3 9 ['M'] 5 false).results ≠ [] := by
    simp only [predictProtein, Bool.false_eq_true, if_false]
    rw [findNearestNeighbors_singleton]
    simp
  exact ⟨hne, searchTime_first_result [entryTen] [] 3 9 5 50000 10 (fun v => v) ['M'] false hne⟩

/-- A concrete corpus row of stored length 1000, falling outside every window
derived from a short query. -/
def entryLong : ReferenceEntry :=
  { id := 3, protein_name := "LONG", sequence := "L", organism := "Org",
    description := "long row", seq_length := 1000, features := [] }

/-- C9: with a corpus whose only row has stored length 1000 and a query of
length 10 (window [8, 12]) the length-windowed scan yields zero candidates,
and the code silently returns an ordinary empty result list; predictProtein
returns a normal output record with empty results and searchTime none; no
distinguished error or marker exists anywhere on this path. -/
theorem no_candidates_silent_empty :
    fastCandidates [entryLong] 10 = [] ∧
    findNearestNeighborsFast [entryLong] 5 [] 5 10 = [] ∧
    (predictProtein (fun v => v) [entryLong] 5 9 (List.replicate 10 'M') 5 true).results
      = [] ∧
    (predictProtein (fun v => v) [entryLong] 5 9 (List.replicate 10 'M') 5 true).searchTime
      = none := by
  have hmax : (⌈(1.2 : ℚ) * ((10 : ℕ) : ℚ)⌉ : ℤ) = 12 := by
    rw [show ((1.2 : ℚ) * ((10 : ℕ) : ℚ)) = 12 by norm_num]
    rw [Int.ceil_eq_iff]
    norm_num
  have hwin : fastCandidates [entryLong] 10 = [] := by
    simp only [fastCandidates, hmax, scanByLengthWindow]
    norm_num [entryLong]
  have hfast : ∀ (q : List ℝ) (t topN : ℕ),
      findNearestNeighborsFast [entryLong] t q topN 10 = [] := by
    intro q t topN
    simp only [findNearestNeighborsFast, hwin, scoreCandidates, List.map_nil,
      sortByDistance, List.mergeSort_nil, List.take_nil, shapeResults, List.mapIdx_nil]
  have hlen : (List.replicate 10 'M').length = 10 := by simp
  refine ⟨hwin, hfast [] 5 5, ?_, ?_⟩
  · simp only [predictProtein, if_true, hlen, hfast]
  · simp only [predictProtein, if_true, hlen, hfast]
    simp

/-- C10: the exhaustive branch of the prediction pipeline passes no scan
limit, so findNearestNeighbors runs with its default maxScan of 50000: the
candidate set is the first 50000 corpus rows in storage order (a prefix of the
corpus) and is capped at 50000 entries regardless of corpus size. -/
theorem exhaustive_default_scan_cap (scaler : List ℝ → List ℝ)
    (db : List ReferenceEntry) (t totalT topN : ℕ) (s : List Char) :
    (predictProtein scaler db t totalT s topN false).results
        = findNearestNeighbors db t (scaler (extractFeaturesFast s)) topN 50000 ∧
    scanAll db 50000 = db.take 50000 ∧
    (scanAll db 50000).length ≤ 50000 ∧
    List.IsPrefix (scanAll db 50000) db := by
  refine ⟨?_, rfl, ?_, ?_⟩
  · simp [predictProtein]
  · exact List.length_take_le _ _
  · exact List.take_prefix _ _

end ProteinChat
